import Mathlib

/-!
Verification development for the RootFinder policy-genealogy engine.

The repository's computational core is modelled shallowly:

* `replication/survival-analysis.R` supplies the survival-duration and
  censoring formulas (`survival_years`, `terminated`) and the simplified
  extended-phenotype score (`calculate_extended_phenotype_score`).
* `theory/extended-phenotype-definitions.md` supplies the four-factor
  phenotype classifier (`is_extended_phenotype`).
* `theory/memetic-fitness-model.md` supplies the memetic fitness formula
  `F(M) = ∏ v_i^(w_i) × R × C × N`, its factor-weight table, and the
  `cultural_compatibility` function.
* The genealogy graph, lineage tracer, inheritance scorer and the engine's
  error taxonomy are described only by the design specification (the Python
  package itself is not part of the sources); those parts are modelled from
  the spec and are marked as such in their doc comments.

Machine floating point is modelled by `ℚ` (and by `ℝ` where the source
formula takes real powers); year arithmetic uses `ℤ`.
-/

deriving instance DecidableEq for Except

namespace RootFinder

/-- Modelled from the spec (§7 Error handling design): the engine's error
taxonomy.  `ValidationError`, the graph-structure errors, scoring and query
errors. -/
inductive EngineError where
  | ValidationError
  | DuplicateIdError
  | DanglingParentError
  | CycleError
  | InsufficientDataError
  | UnknownNodeError
  | GraphNotFinalizedError
deriving DecidableEq

/-- Modelled from the spec (§3 Data model): one policy / provision node.
Node ids are modelled as natural numbers; `year_terminated = none` means the
policy is still active at the analysis reference year. -/
structure PolicyNode where
  id : Nat
  name : String
  jurisdiction : String
  ideology : String
  year_created : Int
  year_terminated : Option Int
  parent_ids : List Nat
  raw_attributes : List (String × ℚ)
deriving DecidableEq

/-- Modelled from the spec (§4.4 Survival model): the per-node survival
record consumed by external survival-analysis tooling. -/
structure SurvivalRecord where
  duration : Int
  event_observed : Bool
deriving DecidableEq

/-- Modelled from the spec (§4.4): `survival_record(node, reference_year)`.
`duration = (year_terminated ?? reference_year) - year_created`;
`event_observed` is true iff `year_terminated` is present. -/
def survival_record (n : PolicyNode) (reference_year : Int) : SurvivalRecord :=
  { duration := (n.year_terminated.getD reference_year) - n.year_created
    event_observed := n.year_terminated.isSome }

/-! ## The replication script's survival preparation

`replication/survival-analysis.R`, lines 22–26:

    policies$survival_years <- ifelse(is.na(policies$year_terminated),
                                     2025 - policies$year_created,
                                     policies$year_terminated - policies$year_created)
    policies$terminated <- ifelse(is.na(policies$year_terminated), 0, 1)
-/

/-- `policies$survival_years` from `replication/survival-analysis.R` (lines
22–24): the reference year is the fixed literal `2025`. -/
def survival_yearsR (year_created : Int) (year_terminated : Option Int) : Int :=
  match year_terminated with
  | none => 2025 - year_created
  | some t => t - year_created

/-- `policies$terminated` from `replication/survival-analysis.R` (line 26):
the censoring indicator, `0` when `year_terminated` is `NA`, else `1`. -/
def terminatedR (year_terminated : Option Int) : Nat :=
  match year_terminated with
  | none => 0
  | some _ => 1

/-! ## The four-factor extended-phenotype classifier

`theory/extended-phenotype-definitions.md`, lines 38–71
(`is_extended_phenotype`): the four criterion measures are combined with
weights `0.25` each and the verdict is `phenotype_score > 0.7`. -/

/-- The combined score of `is_extended_phenotype` in
`theory/extended-phenotype-definitions.md` (lines 63–68): an equal-weight
(0.25 each) combination of the four criterion sub-scores. -/
def phenotype_score (env_mod electoral_boost survival_score transmission : ℚ) : ℚ :=
  env_mod * (25/100) + electoral_boost * (25/100) +
    survival_score * (25/100) + transmission * (25/100)

/-- `is_extended_phenotype` from `theory/extended-phenotype-definitions.md`
(lines 38–71): returns the boolean verdict `phenotype_score > 0.7` together
with the continuous score. -/
def is_extended_phenotype (env_mod electoral_boost survival_score transmission : ℚ) :
    Bool × ℚ :=
  let s := phenotype_score env_mod electoral_boost survival_score transmission
  (s > 7/10, s)

/-! ## The replication script's simplified phenotype score

`replication/survival-analysis.R`, lines 137–159
(`calculate_extended_phenotype_score`). -/

/-- One row of the replication data frame, holding exactly the columns read
by `calculate_extended_phenotype_score` and the survival preparation in
`replication/survival-analysis.R`. -/
structure PolicyRow where
  policy_name : String
  year_created : Int
  year_terminated : Option Int
  descendants_count : Nat
  ideological_orientation : String
deriving DecidableEq

/-- `survival_years` column for a row (lines 22–24 of the script). -/
def PolicyRow.survival_years (r : PolicyRow) : Int :=
  survival_yearsR r.year_created r.year_terminated

/-- `terminated` column for a row (line 26 of the script). -/
def PolicyRow.terminated (r : PolicyRow) : Nat :=
  terminatedR r.year_terminated

/-- `calculate_extended_phenotype_score` from
`replication/survival-analysis.R` (lines 137–159): per-row score built from
`descendants_count`, `survival_years` and `ideological_orientation`. -/
def calculate_extended_phenotype_score (r : PolicyRow) : ℚ :=
  let env_mod := min ((r.descendants_count : ℚ) / 10) 1
  let persistence := min ((r.survival_years : ℚ) / 50) 1
  let heritability : ℚ := if r.descendants_count > 0 then 8/10 else 2/10
  let reproductive : ℚ := if r.ideological_orientation = "Populist" then 8/10 else 3/10
  env_mod * (25/100) + persistence * (25/100) +
    heritability * (25/100) + reproductive * (25/100)

/-! ## Cultural compatibility

`theory/memetic-fitness-model.md`, lines 89–122: `cultural_compatibility`
computes `0.5 + Σ_d weight_d · hofstede_d / 100` over the five Hofstede
dimensions for Argentina, then bounds the result to `[0,1]` with
`min(max(score, 0), 1)`. -/

/-- The Argentina Hofstede scores hard-coded in
`theory/memetic-fitness-model.md` (lines 90–98), in the order
individualism, power distance, uncertainty avoidance, masculinity,
long-term orientation. -/
def hofstede_argentina : List ℚ := [46, 49, 86, 56, 20]

/-- The per-ideology dimension weights of `cultural_compatibility`
(lines 100–115 of `theory/memetic-fitness-model.md`): the `"populist"`
branch, otherwise the liberal branch. -/
def cc_weights (meme_type : String) : List ℚ :=
  if meme_type = "populist" then
    [-2/100, 1/100, 2/100, 1/100, -3/100]
  else
    [2/100, -1/100, -2/100, 0, 3/100]

/-- `cultural_compatibility` from `theory/memetic-fitness-model.md`
(lines 89–122): base score 0.5 plus the weighted Hofstede contributions,
clamped to `[0,1]`. -/
def cultural_compatibility (meme_type : String) : ℚ :=
  let raw := 5/10 +
    (((cc_weights meme_type).zip hofstede_argentina).map
      (fun p => p.1 * p.2 / 100)).sum
  min (max raw 0) 1

/-! ## Memetic fitness

`theory/memetic-fitness-model.md`, lines 5–16 and the factor-weight table at
lines 76–82:

    F(M) = ∏ v_i^(w_i) × R(M) × C(M,E) × N(M)

with weights S:0.25, G:0.25, T:0.20, E:0.20, K:0.10 (summing to 1),
`v_i ∈ [0,10]`, `R ∈ [0,1]`, `C ∈ [0,1]`, `N ∈ [1,∞)`. -/

/-- The factor-weight table of `theory/memetic-fitness-model.md`
(lines 76–82): cognitive simplicity, gratification speed, tangibility,
emotional activation, entry cost. -/
def fitness_weights : List ℚ := [25/100, 25/100, 20/100, 20/100, 10/100]

/-- The names of the five required fitness factors, in table order
(S, G, T, E, K). -/
def fitness_factor_names : List String :=
  ["cognitive_simplicity", "gratification_speed", "tangibility",
   "emotional_activation", "entry_cost"]

/-- The base fitness function `F(M)` of `theory/memetic-fitness-model.md`
(lines 5–16): the weighted product of the five factor values (real powers
with the table weights) times replication fidelity `R`, cultural
compatibility `C` and network effect `N`. -/
noncomputable def F (S G T E K R C N : ℝ) : ℝ :=
  S ^ ((25/100 : ℝ)) * G ^ ((25/100 : ℝ)) * T ^ ((20/100 : ℝ)) *
    E ^ ((20/100 : ℝ)) * K ^ ((10/100 : ℝ)) * R * C * N

/-! ## Genealogy graph

Modelled from the spec (§4.1): the graph owns the node set; `add_node`
validates duplicate ids, dangling parents and cycles before inserting. -/

/-- Modelled from the spec (§3): the genealogy graph, owning the full node
set in insertion order. -/
structure GenealogyGraph where
  nodes : List PolicyNode
deriving DecidableEq

/-- The list of node ids of a graph, in insertion order. -/
def GenealogyGraph.ids (g : GenealogyGraph) : List Nat :=
  g.nodes.map (·.id)

/-- Whether a node id is present in the graph. -/
def GenealogyGraph.memId (g : GenealogyGraph) (i : Nat) : Bool :=
  g.nodes.any (fun n => n.id = i)

/-- Look a node up by id. -/
def GenealogyGraph.findNode (g : GenealogyGraph) (i : Nat) : Option PolicyNode :=
  g.nodes.find? (fun n => n.id = i)

/-- Modelled from the spec (§4.1): `children_of(id)` — the direct children,
i.e. the nodes that list `i` among their `parent_ids`. -/
def children_of (g : GenealogyGraph) (i : Nat) : List PolicyNode :=
  g.nodes.filter (fun n => i ∈ n.parent_ids)

/-- One step of the descendant computation: ids of direct children not yet
seen. -/
def newChildIds (g : GenealogyGraph) (seen : List Nat) (i : Nat) : List Nat :=
  ((children_of g i).map (·.id)).filter (fun c => ¬ c ∈ seen)

/-- Fuel-bounded breadth-style closure used by the cycle check: all ids
reachable from the frontier by walking child edges. -/
def descendantIdsAux (g : GenealogyGraph) : Nat → List Nat → List Nat → List Nat
  | 0, _, seen => seen
  | _ + 1, [], seen => seen
  | fuel + 1, i :: frontier, seen =>
      let cs := newChildIds g seen i
      descendantIdsAux g fuel (frontier ++ cs) (seen ++ cs)

/-- Modelled from the spec (§4.1): `descendants(id)` as a set of ids — all
nodes reachable from `i` by walking child edges transitively (excluding `i`
itself unless it lies on a cycle through itself). -/
def descendantIds (g : GenealogyGraph) (i : Nat) : List Nat :=
  (descendantIdsAux g (g.nodes.length * g.nodes.length + 1) [i] [i]).filter
    (fun c => ¬ c = i)

/-- Modelled from the spec (§4.1): the ancestor-reachability cycle check of
`add_node` — would some prospective parent already reach the new node? -/
def would_cycle (g : GenealogyGraph) (n : PolicyNode) : Bool :=
  n.parent_ids.any (fun p => n.id ∈ descendantIds g p ∨ n.id = p)

/-- Modelled from the spec (§4.1): `add_node(node)` — fails with
`DuplicateIdError` on an existing id, `DanglingParentError` on a missing
parent, `CycleError` when the ancestor-reachability check fires; otherwise
appends the node.  The model is functional, so an error returns no graph at
all (no partial mutation is even expressible). -/
def add_node (g : GenealogyGraph) (n : PolicyNode) : Except EngineError GenealogyGraph :=
  if g.memId n.id then .error .DuplicateIdError
  else if ¬ n.parent_ids.all (fun p => g.memId p) then .error .DanglingParentError
  else if would_cycle g n then .error .CycleError
  else .ok ⟨g.nodes ++ [n]⟩

/-- Modelled from the spec (§2, lifecycle): a graph built by folding
`add_node` over a corpus, starting from the empty graph. -/
def build_graph (corpus : List PolicyNode) : Except EngineError GenealogyGraph :=
  corpus.foldlM add_node ⟨[]⟩

/-- A parent→child edge of the graph: both endpoints are nodes of the graph
and the child lists the parent's id. -/
def Edge (g : GenealogyGraph) (p c : PolicyNode) : Prop :=
  p ∈ g.nodes ∧ c ∈ g.nodes ∧ p.id ∈ c.parent_ids

/-- `Ancestor g a b`: `a` is a (proper) ancestor of `b`, i.e. `b` is
reachable from `a` by at least one parent→child edge. -/
def Ancestor (g : GenealogyGraph) : PolicyNode → PolicyNode → Prop :=
  Relation.TransGen (Edge g)

/-- The spec's acyclicity invariant (§3): no node is its own ancestor. -/
def Acyclic (g : GenealogyGraph) : Prop :=
  ∀ n, ¬ Ancestor g n n

/-- The reachable-state invariant of graphs built through `add_node`: each
node's id is fresh relative to the nodes inserted before it, and each of its
parents was inserted before it. -/
inductive WF : List PolicyNode → Prop where
  | nil : WF []
  | snoc {l : List PolicyNode} {n : PolicyNode} :
      WF l →
      n.id ∉ l.map (·.id) →
      (∀ p ∈ n.parent_ids, p ∈ l.map (·.id)) →
      WF (l ++ [n])

/-! ## Lineage tracer

Modelled from the spec (§4.2): breadth-first traversal over the descendants
of a root, ties broken by ascending `year_created` then ascending id. -/

/-- The spec's traversal tie-break (§4.2): ascending `year_created`, then
ascending id. -/
def child_le (a b : PolicyNode) : Prop :=
  a.year_created < b.year_created ∨
    (a.year_created = b.year_created ∧ a.id ≤ b.id)

instance : DecidableRel child_le := fun a b => by
  unfold child_le; exact inferInstance

instance : IsTotal PolicyNode child_le := by
  refine ⟨fun a b => ?_⟩
  unfold child_le
  rcases lt_trichotomy a.year_created b.year_created with h | h | h
  · exact Or.inl (Or.inl h)
  · rcases Nat.le_total a.id b.id with h2 | h2
    · exact Or.inl (Or.inr ⟨h, h2⟩)
    · exact Or.inr (Or.inr ⟨h.symm, h2⟩)
  · exact Or.inr (Or.inl h)

instance : IsTrans PolicyNode child_le := by
  refine ⟨fun a b c hab hbc => ?_⟩
  unfold child_le at *
  rcases hab with h1 | ⟨h1, h1a⟩ <;> rcases hbc with h2 | ⟨h2, h2a⟩
  · exact Or.inl (h1.trans h2)
  · exact Or.inl (h2 ▸ h1)
  · exact Or.inl (h1 ▸ h2)
  · exact Or.inr ⟨h1.trans h2, h1a.trans h2a⟩

/-- Direct children of node `i`, sorted by the traversal tie-break. -/
def sorted_children (g : GenealogyGraph) (i : Nat) : List PolicyNode :=
  List.insertionSort child_le (children_of g i)

/-- The strict part of the traversal tie-break: `child_le` together with
distinct ids.  On nodes with pairwise-distinct ids this is a strict linear
order, which makes the sorted child list canonical. -/
def child_lt (a b : PolicyNode) : Prop :=
  child_le a b ∧ a.id ≠ b.id

instance : IsAntisymm PolicyNode child_lt := by
  refine ⟨fun a b hab hba => False.elim ?_⟩
  obtain ⟨hab, hne⟩ := hab
  obtain ⟨hba, _⟩ := hba
  unfold child_le at hab hba
  rcases hab with h1 | ⟨hy1, hi1⟩ <;> rcases hba with h2 | ⟨hy2, hi2⟩ <;> omega

/-- Fuel-bounded breadth-first traversal: dequeues the head of the queue,
emits it, and enqueues its not-yet-seen children in tie-break order. -/
def bfsAux (g : GenealogyGraph) : Nat → List Nat → List Nat → List Nat
  | 0, _, _ => []
  | _ + 1, [], _ => []
  | fuel + 1, i :: queue, seen =>
      let cs := ((sorted_children g i).map (·.id)).filter (fun c => ¬ c ∈ seen)
      i :: bfsAux g fuel (queue ++ cs) (seen ++ cs)

/-- The deterministic breadth-first order of the subtree rooted at
`root_id` (the root itself first). -/
def bfs_order (g : GenealogyGraph) (root_id : Nat) : List Nat :=
  bfsAux g (g.nodes.length * g.nodes.length + 1) [root_id] [root_id]

/-- Modelled from the spec (§4.3): the engine bounds every inheritance score
to `[0,1]`. -/
def clamp01 (x : ℚ) : ℚ :=
  min (max x 0) 1

/-- Modelled from the spec (§4.3): `score(parent, child)` — the scoring
formula itself is a pluggable strategy; the engine's contract bounds the
published value to `[0,1]`. -/
def score (strategy : PolicyNode → PolicyNode → ℚ) (p c : PolicyNode) : ℚ :=
  clamp01 (strategy p c)

/-- The parent→child edges lying inside the traced subtree, in traversal
order of the child. -/
def subtree_edges (g : GenealogyGraph) (root_id : Nat) : List (Nat × Nat) :=
  let subtree := bfs_order g root_id
  (subtree.drop 1).flatMap (fun c =>
    match g.findNode c with
    | none => []
    | some cn => (cn.parent_ids.filter (fun p => p ∈ subtree)).map (fun p => (p, c)))

/-- The inheritance score of one subtree edge, by id lookup. -/
def edge_score (g : GenealogyGraph) (strategy : PolicyNode → PolicyNode → ℚ)
    (e : Nat × Nat) : ℚ :=
  match g.findNode e.1, g.findNode e.2 with
  | some p, some c => score strategy p c
  | _, _ => 0

/-- Modelled from the spec (§3): the per-trace lineage report. -/
structure LineageReport where
  root_id : Nat
  descendants : List Nat
  survival_years : Int
  descendant_count : Nat
  mean_inheritance : ℚ
deriving DecidableEq

/-- Modelled from the spec (§4.2): `trace_lineage(root_id)` — fails with
`UnknownNodeError` on an absent root; otherwise reports the breadth-first
descendant list, the root's survival span against the caller-supplied
reference year, the descendant count, and the mean inheritance score over
the subtree's edges (`0` by convention when the subtree has no edges). -/
def trace_lineage (g : GenealogyGraph) (strategy : PolicyNode → PolicyNode → ℚ)
    (root_id : Nat) (reference_year : Int) : Except EngineError LineageReport :=
  match g.findNode root_id with
  | none => .error .UnknownNodeError
  | some root =>
      let desc := (bfs_order g root_id).drop 1
      let edges := subtree_edges g root_id
      .ok { root_id := root_id
            descendants := desc
            survival_years := (root.year_terminated.getD reference_year) - root.year_created
            descendant_count := desc.length
            mean_inheritance :=
              if edges.isEmpty then 0
              else (edges.map (edge_score g strategy)).sum / edges.length }

/-! ## Scoring with missing-data detection

Modelled from the spec (§4.3, §4.5, §7): scoring a node that lacks a
required attribute surfaces `InsufficientDataError`; cohort aggregates
report how many nodes were excluded. -/

/-- Read a named scalar from a node's `raw_attributes`. -/
def getAttr (n : PolicyNode) (k : String) : Option ℚ :=
  (n.raw_attributes.find? (fun p => p.1 = k)).map (fun p => p.2)

/-- Whether an `Except` result is a success. -/
def exceptOk {ε α : Type} : Except ε α → Bool
  | .ok _ => true
  | .error _ => false

/-- Modelled from the spec (§4.5, §7): extraction of the five required
fitness factors from a node; any missing factor raises
`InsufficientDataError`, never a default. -/
def fitness_inputs (n : PolicyNode) : Except EngineError (List ℚ) :=
  if fitness_factor_names.all (fun k => (getAttr n k).isSome) then
    .ok (fitness_factor_names.filterMap (getAttr n))
  else .error .InsufficientDataError

/-- Modelled from the spec (§4.5): `fitness(node)` — the base formula `F`
applied to the node's five validated factors, with caller-supplied
replication fidelity, cultural compatibility and network effect. -/
noncomputable def fitness (n : PolicyNode) (R C N : ℝ) : Except EngineError ℝ :=
  (fitness_inputs n).map (fun vs =>
    match vs with
    | [vS, vG, vT, vE, vK] => F (vS : ℝ) (vG : ℝ) (vT : ℝ) (vE : ℝ) (vK : ℝ) R C N
    | _ => 0)

/-- Modelled from the spec (§4.3, §7): inheritance scoring with required
attributes; a missing required attribute on either endpoint raises
`InsufficientDataError` rather than substituting a default. -/
def score_checked (required : List String) (strategy : PolicyNode → PolicyNode → ℚ)
    (p c : PolicyNode) : Except EngineError ℚ :=
  if required.all (fun k => (getAttr p k).isSome && (getAttr c k).isSome) then
    .ok (score strategy p c)
  else .error .InsufficientDataError

/-- Modelled from the spec (§7): a cohort aggregate never silently drops a
node — it reports how many nodes were excluded by scoring errors. -/
structure CohortAggregate where
  included_count : Nat
  excluded_count : Nat
deriving DecidableEq

/-- Modelled from the spec (§7): the fitness cohort aggregate, counting the
nodes whose required factors validated and the nodes excluded by
`InsufficientDataError`. -/
def cohort_aggregate (cohort : List PolicyNode) : CohortAggregate :=
  { included_count := (cohort.filter (fun n => exceptOk (fitness_inputs n))).length
    excluded_count := (cohort.filter (fun n => ¬ exceptOk (fitness_inputs n))).length }

/-! ## Concrete fixtures

The end-to-end scenario of the spec (§8): root `R` (1945, still active) with
children `C1` (1950) and `C2` (1960, terminated 2000); plus fixtures for the
missing-data scenario and the ideology comparison.  Node ids are numbered
`1`, `2`, `3` for `R`, `C1`, `C2`. -/

/-- Scenario root `R`: `year_created = 1945`, no `year_terminated`. -/
def exampleR : PolicyNode := ⟨1, "R", "Argentina", "Populist", 1945, none, [], []⟩

/-- Scenario child `C1`: `year_created = 1950`. -/
def exampleC1 : PolicyNode := ⟨2, "C1", "Argentina", "Populist", 1950, none, [1], []⟩

/-- Scenario child `C2`: `year_created = 1960`, `year_terminated = 2000`. -/
def exampleC2 : PolicyNode := ⟨3, "C2", "Argentina", "Populist", 1960, some 2000, [1], []⟩

/-- The scenario graph, in loader insertion order `R`, `C1`, `C2`. -/
def exampleGraph : GenealogyGraph := ⟨[exampleR, exampleC1, exampleC2]⟩

/-- The scenario graph with the two children stored in the opposite order. -/
def exampleGraphPerm : GenealogyGraph := ⟨[exampleR, exampleC2, exampleC1]⟩

/-- A trivial pluggable inheritance strategy used by concrete traces. -/
def constStrategy : PolicyNode → PolicyNode → ℚ := fun _ _ => 1/2

/-- A replication data-frame row of a Populist policy with no descendants,
created and terminated in 2000. -/
def rowPopulist : PolicyRow := ⟨"p", 2000, some 2000, 0, "Populist"⟩

/-- The same row with the ideology tag changed to Liberal. -/
def rowLiberal : PolicyRow := ⟨"p", 2000, some 2000, 0, "Liberal"⟩

/-- A second Populist row sharing all grouping-relevant columns with
`rowPopulist` but a different display name. -/
def rowPopulist2 : PolicyRow := ⟨"q", 2000, some 2000, 0, "Populist"⟩

/-- A node carrying all five required fitness factors. -/
def completeNode : PolicyNode :=
  ⟨5, "complete", "Argentina", "Populist", 2000, none, [],
   [("cognitive_simplicity", 5), ("gratification_speed", 5), ("tangibility", 5),
    ("emotional_activation", 5), ("entry_cost", 5)]⟩

/-- A node missing every required `raw_attributes` entry. -/
def missingNode : PolicyNode :=
  ⟨6, "missing", "Argentina", "Populist", 2000, none, [], []⟩

/-! # Theorems -/

/-- C10: in the replication survival computation the reference year is the
fixed literal 2025 — `survival_years = year_terminated - year_created` when
`year_terminated` is present and `2025 - year_created` otherwise, the
censoring indicator `terminated` is `0` exactly when `year_terminated` is
absent, and the computed values coincide with the engine's
`survival_record` taken at the fixed reference year 2025 (no other date
input exists in the computation). -/
theorem c10_replication_fixed_2025 :
    ∀ (y : Int) (t : Option Int),
      survival_yearsR y t = t.getD 2025 - y ∧
      (terminatedR t = 0 ↔ t = none) ∧
      survival_yearsR y t =
        (survival_record ⟨0, "", "", "", y, t, [], []⟩ 2025).duration ∧
      (terminatedR t = 1 ↔
        (survival_record ⟨0, "", "", "", y, t, [], []⟩ 2025).event_observed = true) := by
  intro y t
  cases t <;> simp [survival_yearsR, terminatedR, survival_record]

/-- C1: `survival_record(node, r)` returns
`duration = (year_terminated ?? r) - year_created` and
`event_observed = true` exactly when `year_terminated` is present; on the
end-to-end scenario (root 1945 with children 1950 and 1960/2000, reference
year 2025) `trace_lineage` reports `survival_years = 80` and
`descendant_count = 2`, `survival_record(C2, 2025) = (40, observed)` and
`survival_record(R, 2025) = (80, censored)`. -/
theorem c1_survival_record_scenario :
    (∀ (n : PolicyNode) (r : Int),
        (survival_record n r).duration = n.year_terminated.getD r - n.year_created ∧
        ((survival_record n r).event_observed = true ↔ n.year_terminated.isSome = true)) ∧
    (trace_lineage exampleGraph constStrategy 1 2025).map
        (fun rep => (rep.survival_years, rep.descendant_count)) = .ok (80, 2) ∧
    survival_record exampleC2 2025 = ⟨40, true⟩ ∧
    survival_record exampleR 2025 = ⟨80, false⟩ := by
  refine ⟨fun n r => ⟨rfl, Iff.rfl⟩, by decide, by decide, by decide⟩

/-- C4 counterexample: the classifier's verdict is NOT `score ≥ 0.7` — at
four sub-scores of exactly 0.7 the combined score is 0.7, yet
`is_extended_phenotype` returns `false` (the source compares with strict
`>`). -/
theorem c4_threshold_counterexample :
    ¬ (((is_extended_phenotype (7/10) (7/10) (7/10) (7/10)).1 = true) ↔
        phenotype_score (7/10) (7/10) (7/10) (7/10) ≥ 7/10) := by
  have hs : phenotype_score (7/10) (7/10) (7/10) (7/10) = (7/10 : ℚ) := by
    unfold phenotype_score; norm_num
  have hv : (is_extended_phenotype (7/10) (7/10) (7/10) (7/10)).1 = false := by
    simp only [is_extended_phenotype, hs]
    norm_num
  intro h
  have hmem := h.mpr (ge_of_eq hs)
  rw [hv] at hmem
  exact Bool.false_ne_true hmem

/-- C4 (amended): `classify` combines the four sub-scores with equal fixed
weights 0.25 (so the score is their arithmetic mean) and returns
`is_extended_phenotype = true` exactly when `score > 0.7` (strict, as in the
source's `phenotype_score > 0.7`); on inputs 0.95, 0.87, 1.00, 0.92 it
returns score = 0.935 with verdict `true`. -/
theorem c4_classifier_strict_threshold :
    (∀ e b s t : ℚ,
        (is_extended_phenotype e b s t).2 = phenotype_score e b s t ∧
        phenotype_score e b s t = (e + b + s + t) / 4 ∧
        ((is_extended_phenotype e b s t).1 = true ↔ phenotype_score e b s t > 7/10)) ∧
    is_extended_phenotype (95/100) (87/100) 1 (92/100) = (true, 935/1000) := by
  refine ⟨fun e b s t => ⟨rfl, by unfold phenotype_score; ring, by
    simp [is_extended_phenotype]⟩, ?_⟩
  have hs : phenotype_score (95/100) (87/100) 1 (92/100) = (935/1000 : ℚ) := by
    unfold phenotype_score; norm_num
  simp only [is_extended_phenotype, hs]
  norm_num

/-- C5: the memetic fitness combination is a weighted product whose fixed
factor weights sum to 1, and — because the combination is a product of
powers, not a weighted sum — any single factor at 0 collapses the total
fitness to 0 (for factors normalized to `[0,10]`). -/
theorem c5_fitness_zero_collapse :
    fitness_weights.sum = 1 ∧
    (∀ vS vG vT vE vK fR fC fN : ℝ,
        0 ≤ vS → vS ≤ 10 → 0 ≤ vG → vG ≤ 10 → 0 ≤ vT → vT ≤ 10 →
        0 ≤ vE → vE ≤ 10 → 0 ≤ vK → vK ≤ 10 →
        (vS = 0 ∨ vG = 0 ∨ vT = 0 ∨ vE = 0 ∨ vK = 0) →
        F vS vG vT vE vK fR fC fN = 0) := by
  constructor
  · norm_num [fitness_weights]
  · intro vS vG vT vE vK fR fC fN _ _ _ _ _ _ _ _ _ _ h
    rcases h with h | h | h | h | h <;> subst h <;>
      simp [F, Real.zero_rpow (show ((25:ℝ)/100) ≠ 0 by norm_num),
        Real.zero_rpow (show ((20:ℝ)/100) ≠ 0 by norm_num),
        Real.zero_rpow (show ((10:ℝ)/100) ≠ 0 by norm_num)]

/-- C5 witness: the weights sum to 1 and a concrete fitness evaluation with
cognitive simplicity 0 (the other factors mid-scale) yields 0. -/
theorem c5_fitness_zero_collapse_witness :
    fitness_weights.sum = 1 ∧ F 0 5 5 5 5 1 1 1 = 0 :=
  ⟨c5_fitness_zero_collapse.1,
    c5_fitness_zero_collapse.2 0 5 5 5 5 1 1 1 le_rfl (by norm_num) (by norm_num)
      (by norm_num) (by norm_num) (by norm_num) (by norm_num) (by norm_num)
      (by norm_num) (by norm_num) (Or.inl rfl)⟩

/-- C6 counterexample: two replication rows identical in every column
except the ideology tag receive different extended-phenotype scores
(`0.25` for the Populist row, `0.125` for the Liberal row), because
`calculate_extended_phenotype_score` branches on
`ideological_orientation == "Populist"` when setting the
reproductive-enhancement sub-score. -/
theorem c6_ideology_branching_counterexample :
    rowPopulist.year_created = rowLiberal.year_created ∧
    rowPopulist.year_terminated = rowLiberal.year_terminated ∧
    rowPopulist.descendants_count = rowLiberal.descendants_count ∧
    rowPopulist.policy_name = rowLiberal.policy_name ∧
    calculate_extended_phenotype_score rowPopulist ≠
      calculate_extended_phenotype_score rowLiberal := by
  refine ⟨rfl, rfl, rfl, rfl, ?_⟩
  have h1 : calculate_extended_phenotype_score rowPopulist = 1/4 := by
    simp only [calculate_extended_phenotype_score, rowPopulist,
      PolicyRow.survival_years, survival_yearsR]
    norm_num
  have h2 : calculate_extended_phenotype_score rowLiberal = 1/8 := by
    have hne : ("Liberal" : String) ≠ "Populist" := by decide
    simp only [calculate_extended_phenotype_score, rowLiberal,
      PolicyRow.survival_years, survival_yearsR, if_neg hne]
    norm_num
  rw [h1, h2]
  norm_num

/-- C6 (amended): the survival computation is independent of the ideology
tag, and the extended-phenotype score depends on ideology only through the
test `ideological_orientation = "Populist"` that sets the
reproductive-enhancement sub-score — rows identical except ideology get
equal scores whenever their Populist status agrees.  At the engine level,
`survival_record` reads only the two year fields. -/
theorem c6_ideology_dependence_characterized :
    (∀ (n1 n2 : PolicyNode) (r : Int),
        n1.year_created = n2.year_created → n1.year_terminated = n2.year_terminated →
        survival_record n1 r = survival_record n2 r) ∧
    (∀ r1 r2 : PolicyRow,
        r1.year_created = r2.year_created →
        r1.year_terminated = r2.year_terminated →
        r1.descendants_count = r2.descendants_count →
        (r1.survival_years = r2.survival_years ∧
         r1.terminated = r2.terminated ∧
         ((r1.ideological_orientation = "Populist" ↔
             r2.ideological_orientation = "Populist") →
           calculate_extended_phenotype_score r1 =
             calculate_extended_phenotype_score r2))) := by
  constructor
  · intro n1 n2 r hy ht
    unfold survival_record
    rw [hy, ht]
  · intro r1 r2 hy ht hd
    have hs : r1.survival_years = r2.survival_years := by
      unfold PolicyRow.survival_years
      rw [hy, ht]
    refine ⟨hs, ?_, ?_⟩
    · unfold PolicyRow.terminated
      rw [ht]
    · intro hid
      simp only [calculate_extended_phenotype_score]
      rw [hd, hs]
      by_cases hp : r1.ideological_orientation = "Populist"
      · rw [if_pos hp, if_pos (hid.mp hp)]
      · rw [if_neg hp, if_neg (fun hq => hp (hid.mpr hq))]

/-- C6 witness: two concrete Populist rows differing only in display name
satisfy the hypotheses, and both the survival columns and the phenotype
score agree; the engine-level conjunct is instanced on the scenario root
with its own ideology retagged. -/
theorem c6_ideology_dependence_witness :
    survival_record exampleR 2025 =
      survival_record ⟨1, "R", "Argentina", "Liberal", 1945, none, [], []⟩ 2025 ∧
    (rowPopulist.survival_years = rowPopulist2.survival_years ∧
     rowPopulist.terminated = rowPopulist2.terminated ∧
     calculate_extended_phenotype_score rowPopulist =
       calculate_extended_phenotype_score rowPopulist2) := by
  have h := c6_ideology_dependence_characterized
  have h2 := h.2 rowPopulist rowPopulist2 rfl rfl rfl
  exact ⟨h.1 exampleR ⟨1, "R", "Argentina", "Liberal", 1945, none, [], []⟩ 2025 rfl rfl,
    h2.1, h2.2.1, h2.2.2 (by simp [rowPopulist, rowPopulist2])⟩

/-- C7: scoring a node lacking a required attribute surfaces
`InsufficientDataError` (never a substituted default) for both `fitness`
and the checked inheritance scorer, and cohort aggregates never silently
drop a node — included plus excluded counts always sum to the cohort size,
any erroring member makes `excluded_count` positive, and the two-node
scenario (one complete node, one missing its factors) reports
`excluded_count = 1`. -/
theorem c7_insufficient_data_no_defaults :
    (∀ n : PolicyNode, (∃ k ∈ fitness_factor_names, getAttr n k = none) →
        fitness_inputs n = .error .InsufficientDataError ∧
        ∀ fR fC fN : ℝ, fitness n fR fC fN = .error .InsufficientDataError) ∧
    (∀ (required : List String) (strategy : PolicyNode → PolicyNode → ℚ)
        (p c : PolicyNode),
        (∃ k ∈ required, getAttr p k = none ∨ getAttr c k = none) →
        score_checked required strategy p c = .error .InsufficientDataError) ∧
    (∀ cohort : List PolicyNode,
        (cohort_aggregate cohort).included_count +
          (cohort_aggregate cohort).excluded_count = cohort.length) ∧
    (∀ (cohort : List PolicyNode) (n : PolicyNode), n ∈ cohort →
        fitness_inputs n = .error .InsufficientDataError →
        1 ≤ (cohort_aggregate cohort).excluded_count) ∧
    cohort_aggregate [completeNode, missingNode] = ⟨1, 1⟩ := by
  have hinputs : ∀ n : PolicyNode, (∃ k ∈ fitness_factor_names, getAttr n k = none) →
      fitness_inputs n = .error .InsufficientDataError := by
    intro n ⟨k, hk, hnone⟩
    unfold fitness_inputs
    rw [if_neg]
    intro hall
    have := List.all_eq_true.mp hall k hk
    rw [hnone] at this
    simp at this
  refine ⟨?_, ?_, ?_, ?_, ?_⟩
  · intro n hex
    refine ⟨hinputs n hex, fun fR fC fN => ?_⟩
    unfold fitness
    rw [hinputs n hex]
    rfl
  · intro required strategy p c ⟨k, hk, hnone⟩
    unfold score_checked
    rw [if_neg]
    intro hall
    have := List.all_eq_true.mp hall k hk
    rcases hnone with hnone | hnone <;> rw [hnone] at this <;> simp at this
  · intro cohort
    unfold cohort_aggregate
    induction cohort with
    | nil => rfl
    | cons hd tl ih =>
      by_cases h : exceptOk (fitness_inputs hd) = true <;>
        simp only [List.filter_cons, h, List.length_cons] <;> simp [h] at ih ⊢ <;> omega
  · intro cohort n hn herr
    have hmem : n ∈ cohort.filter (fun m => ¬ exceptOk (fitness_inputs m)) := by
      refine List.mem_filter.mpr ⟨hn, ?_⟩
      simp [herr, exceptOk]
    have := List.length_pos.mpr (List.ne_nil_of_mem hmem)
    exact this
  · rfl

/-- C7 witness: the node with empty `raw_attributes` makes `fitness_inputs`,
`fitness` and the checked scorer error with `InsufficientDataError`, and
the two-node cohort aggregate reports one excluded node. -/
theorem c7_insufficient_data_witness :
    fitness_inputs missingNode = .error .InsufficientDataError ∧
    fitness missingNode 1 1 1 = .error .InsufficientDataError ∧
    score_checked fitness_factor_names (fun _ _ => 1) missingNode completeNode =
      .error .InsufficientDataError ∧
    1 ≤ (cohort_aggregate [completeNode, missingNode]).excluded_count := by
  have h := c7_insufficient_data_no_defaults
  have hex : ∃ k ∈ fitness_factor_names, getAttr missingNode k = none :=
    ⟨"cognitive_simplicity", by simp [fitness_factor_names], rfl⟩
  have h1 := h.1 missingNode hex
  refine ⟨h1.1, h1.2 1 1 1, ?_, ?_⟩
  · exact h.2.1 fitness_factor_names (fun _ _ => 1) missingNode completeNode
      ⟨"cognitive_simplicity", by simp [fitness_factor_names], Or.inl rfl⟩
  · exact h.2.2.2.1 [completeNode, missingNode] missingNode (by simp) h1.1

/-- C8: a traced root whose subtree has no parent→child edges — in
particular a root with zero descendants — gets `mean_inheritance = 0` by
the explicit convention branch, inside a normally returned report (no
error, and over `ℚ` no NaN exists). -/
theorem c8_mean_inheritance_zero_edges :
    (∀ (g : GenealogyGraph) (root_id : Nat),
        (bfs_order g root_id).drop 1 = [] → subtree_edges g root_id = []) ∧
    (∀ (g : GenealogyGraph) (strategy : PolicyNode → PolicyNode → ℚ)
        (root_id : Nat) (ry : Int) (root : PolicyNode),
        g.findNode root_id = some root →
        subtree_edges g root_id = [] →
        ∃ rep : LineageReport,
          trace_lineage g strategy root_id ry = .ok rep ∧
          rep.mean_inheritance = 0 ∧ rep.root_id = root_id) := by
  constructor
  · intro g root_id hdrop
    simp [subtree_edges, hdrop]
  · intro g strategy root_id ry root hfind hedges
    unfold trace_lineage
    rw [hfind]
    refine ⟨_, rfl, ?_, rfl⟩
    simp [hedges]

/-- C8 witness: tracing the childless scenario node `C2` returns a report
with `mean_inheritance = 0`. -/
theorem c8_mean_inheritance_zero_witness :
    ∃ rep : LineageReport,
      trace_lineage exampleGraph constStrategy 3 2025 = .ok rep ∧
      rep.mean_inheritance = 0 ∧ rep.root_id = 3 :=
  c8_mean_inheritance_zero_edges.2 exampleGraph constStrategy 3 2025 exampleC2 rfl rfl

/-- C9: published scores stay in their documented ranges — the engine's
inheritance score is clamped into `[0,1]` for every pluggable strategy,
`cultural_compatibility` lands in `[0,1]` for every meme type, the
replication phenotype score lands in `[0,1]` for every row with nonnegative
survival, and a network-effect multiplier `≥ 1` never takes a nonnegative
fitness below its base value. -/
theorem c9_bounded_scores :
    (∀ (strategy : PolicyNode → PolicyNode → ℚ) (p c : PolicyNode),
        0 ≤ score strategy p c ∧ score strategy p c ≤ 1) ∧
    (∀ mt : String,
        0 ≤ cultural_compatibility mt ∧ cultural_compatibility mt ≤ 1) ∧
    (∀ r : PolicyRow, 0 ≤ r.survival_years →
        0 ≤ calculate_extended_phenotype_score r ∧
          calculate_extended_phenotype_score r ≤ 1) ∧
    (∀ base netEffect : ℝ, 0 ≤ base → 1 ≤ netEffect →
        base ≤ base * netEffect) := by
  refine ⟨?_, ?_, ?_, ?_⟩
  · intro strategy p c
    unfold score clamp01
    exact ⟨le_min (le_max_right _ _) zero_le_one, min_le_right _ _⟩
  · intro mt
    unfold cultural_compatibility
    exact ⟨le_min (le_max_right _ _) zero_le_one, min_le_right _ _⟩
  · intro r hs
    have hsq : (0:ℚ) ≤ (r.survival_years : ℚ) := by exact_mod_cast hs
    have hd : (0:ℚ) ≤ (r.descendants_count : ℚ) := Nat.cast_nonneg _
    have h1 : (0:ℚ) ≤ min ((r.descendants_count : ℚ) / 10) 1 :=
      le_min (by positivity) zero_le_one
    have h2 : min ((r.descendants_count : ℚ) / 10) 1 ≤ 1 := min_le_right _ _
    have h3 : (0:ℚ) ≤ min ((r.survival_years : ℚ) / 50) 1 :=
      le_min (by positivity) zero_le_one
    have h4 : min ((r.survival_years : ℚ) / 50) 1 ≤ 1 := min_le_right _ _
    simp only [calculate_extended_phenotype_score, PolicyRow.survival_years] at *
    constructor <;> by_cases hdc : r.descendants_count > 0 <;>
      by_cases hio : r.ideological_orientation = "Populist" <;>
      simp only [if_pos, if_neg, hdc, hio, if_true, if_false] <;>
      linarith
  · intro base netEffect hb hn
    exact le_mul_of_one_le_right hb hn

/-- C9 witness: concrete instances — a strategy returning 2 clamps into
`[0,1]`, both cultural-compatibility branches land in `[0,1]`, the concrete
Populist row's phenotype score lands in `[0,1]`, and `2 ≤ 2 * 3`. -/
theorem c9_bounded_scores_witness :
    (0 ≤ score (fun _ _ => 2) exampleR exampleC1 ∧
      score (fun _ _ => 2) exampleR exampleC1 ≤ 1) ∧
    (0 ≤ cultural_compatibility "populist" ∧ cultural_compatibility "populist" ≤ 1) ∧
    (0 ≤ calculate_extended_phenotype_score rowPopulist ∧
      calculate_extended_phenotype_score rowPopulist ≤ 1) ∧
    ((2:ℝ) ≤ 2 * 3) := by
  have h := c9_bounded_scores
  exact ⟨h.1 (fun _ _ => 2) exampleR exampleC1, h.2.1 "populist",
    h.2.2.1 rowPopulist (by decide), h.2.2.2 2 3 (by norm_num) (by norm_num)⟩

/-! ## Acyclicity of graphs built through `add_node` -/

/-- In a well-formed node list, every referenced parent id is the id of
some node of the list. -/
theorem wf_parents_closed {l : List PolicyNode} (h : WF l) :
    ∀ m ∈ l, ∀ p ∈ m.parent_ids, p ∈ l.map (·.id) := by
  induction h with
  | nil => simp
  | @snoc l n hwf hid hpar ih =>
    intro m hm p hp
    rw [List.map_append]
    rcases List.mem_append.mp hm with hm | hm
    · exact List.mem_append.mpr (Or.inl (ih m hm p hp))
    · have hm : m = n := by simpa using hm
      subst hm
      exact List.mem_append.mpr (Or.inl (hpar p hp))

/-- A member of `l ++ [n]` other than `n` is a member of `l`. -/
theorem mem_of_append_singleton_ne {l : List PolicyNode} {n a : PolicyNode}
    (h : a ∈ l ++ [n]) (hne : a ≠ n) : a ∈ l := by
  rcases List.mem_append.mp h with h | h
  · exact h
  · simp at h
    exact absurd h hne

/-- The freshly appended node has no outgoing edge: no node of the extended
graph lists its id as a parent. -/
theorem no_edge_from_last {l : List PolicyNode} {n : PolicyNode}
    (hid : n.id ∉ l.map (·.id))
    (hpar : ∀ p ∈ n.parent_ids, p ∈ l.map (·.id))
    (hclosed : ∀ m ∈ l, ∀ p ∈ m.parent_ids, p ∈ l.map (·.id)) :
    ∀ c, ¬ Edge ⟨l ++ [n]⟩ n c := by
  rintro c ⟨_, hc, hpe⟩
  by_cases hcn : c = n
  · rw [hcn] at hpe
    exact hid (hpar n.id hpe)
  · exact hid (hclosed c (mem_of_append_singleton_ne hc hcn) n.id hpe)

/-- An ancestor path in the extended graph that does not end at the fresh
node never visits the fresh node and is already a path of the old graph. -/
theorem transGen_drop_last {l : List PolicyNode} {n : PolicyNode}
    (hnoout : ∀ c, ¬ Edge ⟨l ++ [n]⟩ n c) :
    ∀ a b, Relation.TransGen (Edge ⟨l ++ [n]⟩) a b → b ≠ n →
      a ≠ n ∧ Relation.TransGen (Edge ⟨l⟩) a b := by
  intro a b h
  induction h with
  | @single b he =>
    intro hbn
    have han : a ≠ n := fun heq =>
      hnoout b (show Edge ⟨l ++ [n]⟩ n b from heq ▸ he)
    obtain ⟨ha, hb, hp⟩ := he
    exact ⟨han, .single ⟨mem_of_append_singleton_ne ha han,
      mem_of_append_singleton_ne hb hbn, hp⟩⟩
  | @tail b c hab hbc ih =>
    intro hcn
    have hbn : b ≠ n := fun heq =>
      hnoout c (show Edge ⟨l ++ [n]⟩ n c from heq ▸ hbc)
    obtain ⟨han, ht⟩ := ih hbn
    obtain ⟨hb, hc, hp⟩ := hbc
    exact ⟨han, ht.tail ⟨mem_of_append_singleton_ne hb hbn,
      mem_of_append_singleton_ne hc hcn, hp⟩⟩

/-- Well-formed node lists give acyclic graphs: no node is its own
ancestor. -/
theorem wf_acyclic {l : List PolicyNode} (h : WF l) : Acyclic ⟨l⟩ := by
  induction h with
  | nil =>
    intro m hm
    obtain ⟨b, hnb, _⟩ := Relation.TransGen.head'_iff.mp hm
    exact absurd hnb.1 (List.not_mem_nil m)
  | @snoc l n hwf hid hpar ih =>
    intro m hm
    have hnoout := no_edge_from_last hid hpar (wf_parents_closed hwf)
    by_cases hmn : m = n
    · subst hmn
      obtain ⟨b, hnb, _⟩ := Relation.TransGen.head'_iff.mp hm
      exact hnoout b hnb
    · obtain ⟨_, ht⟩ := transGen_drop_last hnoout m m hm hmn
      exact ih m ht

/-- A successful `add_node` only appends the new node. -/
theorem add_node_ok_append {g : GenealogyGraph} {n : PolicyNode}
    {g2 : GenealogyGraph} (h : add_node g n = .ok g2) :
    g2.nodes = g.nodes ++ [n] := by
  unfold add_node at h
  split at h
  · cases h
  split at h
  · cases h
  split at h
  · cases h
  injection h with h
  rw [← h]

/-- A successful `add_node` preserves the construction invariant. -/
theorem add_node_ok_WF {g : GenealogyGraph} {n : PolicyNode}
    {g2 : GenealogyGraph} (hwf : WF g.nodes) (h : add_node g n = .ok g2) :
    WF g2.nodes := by
  unfold add_node at h
  split at h
  · cases h
  rename_i hdup
  split at h
  · cases h
  rename_i hdang
  split at h
  · cases h
  injection h with h
  rw [← h]
  refine WF.snoc hwf ?_ ?_
  · intro hmem
    apply hdup
    simp only [GenealogyGraph.memId, List.any_eq_true, decide_eq_true_eq]
    obtain ⟨m, hm, hmid⟩ := List.mem_map.mp hmem
    exact ⟨m, hm, hmid⟩
  · intro p hp
    have hall : n.parent_ids.all (fun p => g.memId p) = true := by
      by_contra hno
      exact hdang (by simpa using hno)
    have := List.all_eq_true.mp hall p hp
    simp only [GenealogyGraph.memId, List.any_eq_true, decide_eq_true_eq] at this
    obtain ⟨m, hm, hmid⟩ := this
    exact List.mem_map.mpr ⟨m, hm, hmid⟩

/-- Folding `add_node` over a corpus preserves the construction
invariant. -/
theorem foldlM_add_node_WF :
    ∀ (corpus : List PolicyNode) (g0 g : GenealogyGraph),
      WF g0.nodes → corpus.foldlM add_node g0 = .ok g → WF g.nodes := by
  intro corpus
  induction corpus with
  | nil =>
    intro g0 g h0 h
    rw [List.foldlM_nil] at h
    injection h with h
    rw [← h]
    exact h0
  | cons hd tl ih =>
    intro g0 g h0 h
    rw [List.foldlM_cons] at h
    cases hadd : add_node g0 hd with
    | error e =>
      rw [hadd] at h
      cases h
    | ok g1 =>
      rw [hadd] at h
      exact ih g1 g (add_node_ok_WF h0 hadd) h

/-- C2: `add_node` can never produce a graph in which some node is its own
ancestor — a successful call only appends the validated node (the
functional model returns no graph at all on `DuplicateIdError`,
`DanglingParentError` or `CycleError`, so failed calls leave the caller's
graph untouched), success from a reachable (well-formed) state preserves
well-formedness and yields an acyclic graph, and every graph built through
`add_node` from the empty graph is acyclic. -/
theorem c2_add_node_cycle_safety :
    (∀ (g : GenealogyGraph) (n : PolicyNode) (g2 : GenealogyGraph),
        add_node g n = .ok g2 → g2.nodes = g.nodes ++ [n]) ∧
    (∀ (g : GenealogyGraph) (n : PolicyNode) (g2 : GenealogyGraph),
        WF g.nodes → add_node g n = .ok g2 → WF g2.nodes ∧ Acyclic g2) ∧
    (∀ (corpus : List PolicyNode) (g : GenealogyGraph),
        build_graph corpus = .ok g → Acyclic g) := by
  refine ⟨fun g n g2 h => add_node_ok_append h, ?_, ?_⟩
  · intro g n g2 hwf h
    have h2 := add_node_ok_WF hwf h
    refine ⟨h2, ?_⟩
    have := wf_acyclic h2
    cases g2
    exact this
  · intro corpus g h
    have h2 := foldlM_add_node_WF corpus ⟨[]⟩ g WF.nil h
    have := wf_acyclic h2
    cases g
    exact this

/-- C2 witness: concretely, adding `C1` to the one-node graph `[R]`
succeeds by appending it, the result is well-formed and acyclic, and the
fully built scenario graph is acyclic. -/
theorem c2_add_node_cycle_safety_witness :
    (∀ g2, add_node ⟨[exampleR]⟩ exampleC1 = .ok g2 →
        g2.nodes = [exampleR] ++ [exampleC1]) ∧
    (WF (GenealogyGraph.mk [exampleR, exampleC1]).nodes ∧
      Acyclic ⟨[exampleR, exampleC1]⟩) ∧
    Acyclic exampleGraph := by
  have h := c2_add_node_cycle_safety
  have hwf1 : WF (GenealogyGraph.mk [exampleR]).nodes :=
    WF.snoc WF.nil (by simp) (by simp [exampleR])
  refine ⟨fun g2 hok => h.1 ⟨[exampleR]⟩ exampleC1 g2 hok, ?_, ?_⟩
  · exact h.2.1 ⟨[exampleR]⟩ exampleC1 ⟨[exampleR, exampleC1]⟩ hwf1 rfl
  · exact h.2.2 [exampleR, exampleC1, exampleC2] exampleGraph rfl

/-! ## Determinism of the lineage trace -/

/-- With unique node ids, id lookup does not depend on the storage order of
the node list. -/
theorem find_node_eq_of_perm {g1 g2 : GenealogyGraph}
    (hnd : (g1.nodes.map (·.id)).Nodup) (hp : g1.nodes.Perm g2.nodes) (i : Nat) :
    g1.findNode i = g2.findNode i := by
  unfold GenealogyGraph.findNode
  cases hfind : g1.nodes.find? (fun n => n.id = i) with
  | none =>
    symm
    rw [List.find?_eq_none] at hfind ⊢
    intro x hx
    exact hfind x (hp.mem_iff.mpr hx)
  | some x =>
    have hx1 : x ∈ g1.nodes := List.mem_of_find?_eq_some hfind
    have hxi : x.id = i := by simpa using List.find?_some hfind
    cases hfind2 : g2.nodes.find? (fun n => n.id = i) with
    | none =>
      have := List.find?_eq_none.mp hfind2 x (hp.mem_iff.mp hx1)
      simp [hxi] at this
    | some y =>
      have hy2 : y ∈ g2.nodes := List.mem_of_find?_eq_some hfind2
      have hyi : y.id = i := by simpa using List.find?_some hfind2
      have hy1 : y ∈ g1.nodes := hp.mem_iff.mpr hy2
      have hxy : x = y := List.inj_on_of_nodup_map hnd hx1 hy1 (by rw [hxi, hyi])
      rw [hxy]

/-- With unique node ids, the tie-break-sorted child list is canonical: it
does not depend on the storage order of the node list. -/
theorem sorted_children_eq_of_perm {g1 g2 : GenealogyGraph}
    (hnd : (g1.nodes.map (·.id)).Nodup) (hp : g1.nodes.Perm g2.nodes) (i : Nat) :
    sorted_children g1 i = sorted_children g2 i := by
  have hcp : (children_of g1 i).Perm (children_of g2 i) := hp.filter _
  have hperm : (sorted_children g1 i).Perm (sorted_children g2 i) :=
    ((List.perm_insertionSort child_le _).trans hcp).trans
      (List.perm_insertionSort child_le _).symm
  have hnd2 : (g2.nodes.map (·.id)).Nodup := ((hp.map (·.id)).nodup_iff).mp hnd
  have hfil1 : ((children_of g1 i).map (·.id)).Nodup := by
    unfold children_of
    exact List.Nodup.sublist (List.Sublist.map (·.id) (List.filter_sublist g1.nodes)) hnd
  have hfil2 : ((children_of g2 i).map (·.id)).Nodup := by
    unfold children_of
    exact List.Nodup.sublist (List.Sublist.map (·.id) (List.filter_sublist g2.nodes)) hnd2
  have hndc1 : ((sorted_children g1 i).map (·.id)).Nodup :=
    (((List.perm_insertionSort child_le _).map (·.id)).nodup_iff).mpr hfil1
  have hndc2 : ((sorted_children g2 i).map (·.id)).Nodup :=
    (((List.perm_insertionSort child_le _).map (·.id)).nodup_iff).mpr hfil2
  have hlt1 : List.Sorted child_lt (sorted_children g1 i) :=
    ((List.sorted_insertionSort child_le _).and
      (List.pairwise_map.mp hndc1)).imp (fun hab => hab)
  have hlt2 : List.Sorted child_lt (sorted_children g2 i) :=
    ((List.sorted_insertionSort child_le _).and
      (List.pairwise_map.mp hndc2)).imp (fun hab => hab)
  exact List.eq_of_perm_of_sorted hperm hlt1 hlt2

/-- The breadth-first walk depends on the graph only through the sorted
child lists. -/
theorem bfsAux_congr {g1 g2 : GenealogyGraph}
    (hch : ∀ i, sorted_children g1 i = sorted_children g2 i) :
    ∀ fuel queue seen, bfsAux g1 fuel queue seen = bfsAux g2 fuel queue seen := by
  intro fuel
  induction fuel with
  | zero => intro queue seen; rfl
  | succ fuel ih =>
    intro queue seen
    cases queue with
    | nil => rfl
    | cons i rest =>
      simp only [bfsAux]
      rw [hch i, ih]

/-- With unique node ids, `trace_lineage` is invariant under permutations
of the stored node list: the report depends only on the node set. -/
theorem trace_lineage_eq_of_perm {g1 g2 : GenealogyGraph}
    (strategy : PolicyNode → PolicyNode → ℚ) (rid : Nat) (ry : Int)
    (hnd : (g1.nodes.map (·.id)).Nodup) (hp : g1.nodes.Perm g2.nodes) :
    trace_lineage g1 strategy rid ry = trace_lineage g2 strategy rid ry := by
  have hfindF : g1.findNode = g2.findNode :=
    funext (find_node_eq_of_perm hnd hp)
  have hch : ∀ i, sorted_children g1 i = sorted_children g2 i :=
    sorted_children_eq_of_perm hnd hp
  have hlen : g1.nodes.length = g2.nodes.length := hp.length_eq
  have hbfs : ∀ r2, bfs_order g1 r2 = bfs_order g2 r2 := by
    intro r2
    unfold bfs_order
    rw [hlen, bfsAux_congr hch]
  have hedges : subtree_edges g1 rid = subtree_edges g2 rid := by
    unfold subtree_edges
    rw [hbfs, hfindF]
  have hes : edge_score g1 strategy = edge_score g2 strategy := by
    funext e
    unfold edge_score
    rw [hfindF]
  unfold trace_lineage
  rw [hfindF, hbfs, hedges, hes]

/-- C3: `trace_lineage` is deterministic — repeating a call on the same
graph state gives the same report value, the report is independent of node
storage order (no hash-iteration-order dependence) whenever ids are unique,
and the descendant list is the breadth-first order with ties broken by
ascending `year_created` then ascending id: the scenario graph stored with
its children scrambled still reports descendants `[2, 3]` (ids in
tie-break order). -/
theorem c3_trace_lineage_deterministic :
    (∀ (g : GenealogyGraph) (strategy : PolicyNode → PolicyNode → ℚ)
        (rid : Nat) (ry : Int),
        trace_lineage g strategy rid ry = trace_lineage g strategy rid ry) ∧
    (∀ (g1 g2 : GenealogyGraph) (strategy : PolicyNode → PolicyNode → ℚ)
        (rid : Nat) (ry : Int),
        (g1.nodes.map (·.id)).Nodup → g1.nodes.Perm g2.nodes →
        trace_lineage g1 strategy rid ry = trace_lineage g2 strategy rid ry) ∧
    (trace_lineage exampleGraphPerm constStrategy 1 2025).map
        (fun rep => rep.descendants) = .ok [2, 3] := by
  exact ⟨fun g strategy rid ry => rfl,
    fun g1 g2 strategy rid ry hnd hp => trace_lineage_eq_of_perm strategy rid ry hnd hp,
    by decide⟩

/-- C3 witness: the scenario graph and its scrambled copy produce the very
same lineage report. -/
theorem c3_trace_lineage_deterministic_witness :
    trace_lineage exampleGraph constStrategy 1 2025 =
      trace_lineage exampleGraphPerm constStrategy 1 2025 :=
  c3_trace_lineage_deterministic.2.1 exampleGraph exampleGraphPerm constStrategy 1 2025
    (by decide) (List.Perm.cons exampleR (List.Perm.swap exampleC2 exampleC1 []))

end RootFinder
